import Mathlib

/-
Verification of the core of the gql GraphQL client library.

This file shallowly embeds the Python sources (gql/client.py, gql/dsl.py,
gql/transport/requests.py) as executable Lean definitions: Python objects
become structures, mutation becomes explicit state passing, raised
exceptions become an error sum. External collaborators (the graphql-core
parser, validators, schema builders) are abstracted as function parameters,
exactly as the specification declares them out of scope. Parts of the
repository that are referenced by its tests but whose sources were not
provided (the websockets transport, gql/utils.py) are modelled from the
specification and are marked as such in their doc comments.
-/

set_option autoImplicit false

namespace Gql

/-- JSON values, as delivered by transports and carried in GraphQL results. -/
inductive Json where
  | null
  | boolean (b : Bool)
  | num (n : Int)
  | str (s : String)
  | arr (xs : List Json)
  | obj (fields : List (String × Json))

/-- Python truthiness of a JSON value, used by checks such as
the check on result errors in Client.execute. -/
def Json.truthy : Json → Bool
  | .null => false
  | .boolean b => b
  | .num n => n != 0
  | .str s => s != ""
  | .arr xs => !xs.isEmpty
  | .obj fs => !fs.isEmpty

/-- Python indexing v[0] on a JSON value: the head of a list, the first
character of a non-empty string; anything else raises (modelled as none). -/
def Json.index0 : Json → Option Json
  | .arr (x :: _) => some x
  | .str s => if s = "" then none else some (.str (s.take 1))
  | _ => none

/-- ExecutionResult from graphql: the data and errors carried by a
transport response (gql/transport/requests.py builds one from the
response body; Client.execute consumes one). -/
structure ExecutionResult where
  data : Option Json
  errors : Option Json

/-- Exceptions escaping the client orchestrator (gql/client.py). -/
inductive ClientError where
  /-- GQLSyntaxError raised by Client.validate when no schema is known. -/
  | gqlSyntaxError (msg : String)
  /-- The first schema validation error, re-raised by Client.validate. -/
  | validationError (e : String)
  /-- GQLServerError wrapping the first entry of a non-empty errors list. -/
  | gqlServerError (e : Json)
  /-- RetryError raised in Client.get result after exhausting retries,
  carrying the retry count and the last transport exception. -/
  | retryError (retriesCount : Nat) (lastException : Option String)
  /-- A transport exception propagating unwrapped (the retries = 0 path). -/
  | transportError (e : String)
  /-- Any other Python-level crash (for example indexing a non-list). -/
  | pyCrash

/-- The Client of gql/client.py after construction.

The schema is abstracted to its validation function (the specification
treats the graphql validator as an external collaborator): `some v` means a
schema is known and validating a document yields the error list `v doc`.
The transport is abstracted to the result of its execute method on a given
document at a given attempt index (so that a transport that fails some
attempts and succeeds at others is expressible); `.error e` models a raised
exception. The type adaptor is abstracted to the function applied to the
result data. -/
structure Client where
  schema : Option (String → List String)
  transport : String → Nat → Except String ExecutionResult
  retries : Nat
  typeAdaptor : Option (Option Json → Option Json)

/-- Client.validate: fails with GQLSyntaxError when no schema is known,
otherwise raises the first validation error, if any. -/
def Client.validate (c : Client) (doc : String) : Except ClientError Unit :=
  match c.schema with
  | none => .error (.gqlSyntaxError
      "Cannot validate locally the document, you need to pass a schema.")
  | some v =>
    match v doc with
    | [] => .ok ()
    | e :: _ => .error (.validationError e)

/-- The while loop of Client.get result (gql/client.py lines 67-80):
while the retry count is below retries, attempt the transport; a success
returns immediately, an exception is recorded and the count incremented;
when the loop exits, RetryError carries the count and the last exception. -/
def getResultLoop (transport : Nat → Except String ExecutionResult) (retries : Nat)
    (retriesCount : Nat) (lastException : Option String) :
    Except ClientError ExecutionResult :=
  if h : retriesCount < retries then
    match transport retriesCount with
    | .ok result => .ok result
    | .error e => getResultLoop transport retries (retriesCount + 1) (some e)
  else
    .error (.retryError retriesCount lastException)
termination_by retries - retriesCount
decreasing_by simp_wf; omega

/-- Client.get result: with retries = 0 a single transport attempt is made
and its exception, if any, propagates unwrapped; otherwise the retry loop
runs starting from attempt 0. -/
def Client.getResult (c : Client) (doc : String) : Except ClientError ExecutionResult :=
  if c.retries = 0 then
    match c.transport doc 0 with
    | .ok r => .ok r
    | .error e => .error (.transportError e)
  else
    getResultLoop (c.transport doc) c.retries 0 none

/-- The tail of Client.execute: apply the type adaptor to the result data
when one is configured, and return the data. -/
def Client.finishExecute (c : Client) (data : Option Json) :
    Except ClientError (Option Json) :=
  match c.typeAdaptor with
  | some adaptor => .ok (adaptor data)
  | none => .ok data

/-- Client.execute: validate when a schema is known, get the transport
result (with retries), raise GQLServerError on the first entry of a truthy
errors value, otherwise adapt and return the data. -/
def Client.execute (c : Client) (doc : String) : Except ClientError (Option Json) :=
  match (if c.schema.isSome then c.validate doc else .ok ()) with
  | .error e => .error e
  | .ok _ =>
    match c.getResult doc with
    | .error e => .error e
    | .ok result =>
      match result.errors with
      | some errs =>
        if errs.truthy then
          match errs.index0 with
          | some e => .error (.gqlServerError e)
          | none => .error .pyCrash
        else c.finishExecute result.data
      | none => c.finishExecute result.data

/-- Outcome of Client construction (gql/client.py lines 21-41): either an
accepted Client (recording which attributes end up set) or the message of
the failing assert statement. -/
inductive InitResult where
  | accepted (schemaSet : Bool) (transportSet : Bool)
  | assertionError (msg : String)
  deriving Repr, DecidableEq

/-- Whether a construction outcome is an accepted Client. -/
def InitResult.isOk : InitResult → Bool
  | .accepted _ _ => true
  | .assertionError _ => false

/-- The tail of Client construction, from the line testing introspection
(gql/client.py lines 27-35), once the effective introspection value is
known. The external schema builders (build client schema, parse,
build ast schema) are abstract and assumed total, as the specification
places them out of scope; only presence of the inputs matters here. -/
def finishInit (schema introspection typeDef transport : Bool) : InitResult :=
  if introspection then
    if schema then .assertionError "Cant provide introspection and schema at the same time"
    else .accepted true transport
  else if typeDef then
    if schema then .assertionError "Cant provide Type definition and schema at the same time"
    else .accepted true transport
  else if schema && !transport then
    -- a LocalSchemaTransport is synthesized from the schema
    .accepted true true
  else .accepted schema transport

/-- Client construction (gql/client.py lines 21-35). Each argument is the
Python truthiness of the corresponding constructor argument; fetchedData is
the truthiness of the data attribute of the introspection query result that
the transport returns when fetch schema from transport is set. -/
def clientInit (schema introspection typeDef transport fetchSchemaFromTransport
    fetchedData : Bool) : InitResult :=
  if typeDef && introspection then
    .assertionError "Cant provide introspection type definition at the same time"
  else if transport && fetchSchemaFromTransport then
    if schema then
      .assertionError "Cant fetch the schema from transport if is already provided"
    else
      -- introspection is overwritten with the transport query result
      finishInit schema fetchedData typeDef transport
  else finishInit schema introspection typeDef transport

/-- How many of the three mutually exclusive schema inputs are supplied. -/
def suppliedCount (schema introspection typeDef : Bool) : Nat :=
  schema.toNat + introspection.toNat + typeDef.toNat

/-- The claim that Client construction accepts exactly the argument
combinations supplying at most one of schema, introspection and type def,
stated over all combinations of constructor arguments. -/
def clientInitClaim : Prop :=
  ∀ s i t tr f fd : Bool,
    (1 < suppliedCount s i t → (clientInit s i t tr f fd).isOk = false) ∧
    (suppliedCount s i t ≤ 1 → (clientInit s i t tr f fd).isOk = true)

/-- Exceptions raised by the requests HTTP transport execute method. -/
inductive RequestsError where
  /-- response.raise for status raised, carrying the HTTP status code. -/
  | httpStatusError (status : Nat)
  /-- the unconditional HTTPError saying the server did not return a
  GraphQL result, reached when the status itself is not an error. -/
  | notAGraphQLResult
  deriving Repr, DecidableEq

/-- Whether response.raise for status raises for the given status code
(client errors 4xx and server errors 5xx). -/
def raiseForStatus (status : Nat) : Bool :=
  (400 ≤ status && status < 600)

/-- RequestsHTTPTransport.execute (gql/transport/requests.py lines
104-117), modelled from the point where the HTTP response is available:
status is the response status code and body is the parsed JSON of the
response body (none when the body is not valid JSON). A non-dict JSON body
is replaced by an empty dict; a dict lacking both the errors and the data
key escalates to the status check; otherwise an ExecutionResult is built
from the two keys, absent keys mapping to None. -/
def requestsExecute (status : Nat) (body : Option Json) :
    Except RequestsError ExecutionResult :=
  let result : List (String × Json) :=
    match body with
    | some (.obj fields) => fields
    | _ => []
  if (List.lookup "errors" result).isNone && (List.lookup "data" result).isNone then
    if raiseForStatus status then .error (.httpStatusError status)
    else .error .notAGraphQLResult
  else
    .ok { data := List.lookup "data" result, errors := List.lookup "errors" result }

/-- Python values handed to the DSL as argument values (gql/dsl.py,
DSLField.args keyword values). -/
inductive GValue where
  | null
  | int (n : Int)
  | str (s : String)
  | boolean (b : Bool)
  | list (xs : List GValue)
  | dict (fields : List (String × GValue))

/-- GraphQL input types as seen by DSLField.get arg serializer
(gql/dsl.py lines 311-342): the wrapper types recurse, input object types
are referred to by name (their identity, the memoization key) and their
fields live in a separate environment, so that self-referential input
objects are expressible. The inputField constructor mirrors the
GraphQLInputField wrapper around every field type. -/
inductive TypeRef where
  | nonNull (t : TypeRef)
  | inputField (t : TypeRef)
  | inputObject (name : String)
  | listType (t : TypeRef)
  | enumType (name : String)
  | scalarType (name : String)

/-- Deep embedding of the serializer closures built by
DSLField.get arg serializer. An obj serializer captures, per input object
field, the serializer derived for that field, which is none exactly when
the derivation hit the memoization placeholder (the None entry) for an
input object still being processed; a list serializer likewise captures a
possibly-placeholder inner serializer. -/
inductive Ser where
  | obj (fieldSers : List (String × Option Ser))
  | list (inner : Option Ser)
  | enum (typeName : String)
  | scalar (typeName : String)

/-- Update the value of the first entry of the table holding the given
key, modelling the Python dict update that installs the completed
serializer over the placeholder. -/
def replaceEntry (name : String) (v : Option Ser) :
    List (String × Option Ser) → List (String × Option Ser)
  | [] => []
  | (k, w) :: rest =>
    if k = name then (k, v) :: rest else (k, w) :: replaceEntry name v rest

mutual

/-- DSLField.get arg serializer (gql/dsl.py lines 311-342) with the
memoization table passed explicitly (in Python it is the mutable
known arg serializers dict of the DSLField). The first argument is the
environment giving every input object type its fields; the Nat argument
is recursion fuel, a modelling device for the unbounded Python recursion:
a none result means the fuel ran out, and the termination theorem shows a
computable amount of fuel always suffices. On an input object not yet in
the table, a placeholder none entry is inserted before the fields are
recursed into, and the completed serializer replaces the placeholder
afterwards; an input object already in the table resolves through the
table, possibly to the placeholder itself. -/
def deriveSer (env : List (String × List (String × TypeRef))) :
    Nat → TypeRef → List (String × Option Ser) →
    Option (Option Ser × List (String × Option Ser))
  | 0, _, _ => none
  | fuel + 1, t, table =>
    match t with
    | .nonNull inner => deriveSer env fuel inner table
    | .inputField inner => deriveSer env fuel inner table
    | .inputObject name =>
      match List.lookup name table with
      | some cached => some (cached, table)
      | none =>
        match deriveFields env fuel ((List.lookup name env).getD [])
            ((name, none) :: table) with
        | none => none
        | some (fieldSers, table2) =>
          some (some (.obj fieldSers), replaceEntry name (some (.obj fieldSers)) table2)
    | .listType inner =>
      match deriveSer env fuel inner table with
      | none => none
      | some (innerSer, table2) => some (some (.list innerSer), table2)
    | .enumType name => some (some (.enum name), table)
    | .scalarType name => some (some (.scalar name), table)

/-- The dict comprehension deriving one serializer per input object field,
threading the memoization table left to right. Each field value is a
GraphQLInputField, hence the inputField wrapper. -/
def deriveFields (env : List (String × List (String × TypeRef))) :
    Nat → List (String × TypeRef) → List (String × Option Ser) →
    Option (List (String × Option Ser) × List (String × Option Ser))
  | 0, _, _ => none
  | _ + 1, [], table => some ([], table)
  | fuel + 1, (k, ft) :: rest, table =>
    match deriveSer env fuel (.inputField ft) table with
    | none => none
    | some (s, table2) =>
      match deriveFields env fuel rest table2 with
      | none => none
      | some (sers, table3) => some ((k, s) :: sers, table3)

end

/-- Structural weight of a type reference, the fuel its non-memoized
derivation steps consume. -/
def TypeRef.weight : TypeRef → Nat
  | .nonNull t => t.weight + 1
  | .inputField t => t.weight + 1
  | .listType t => t.weight + 1
  | .inputObject _ => 2
  | .enumType _ => 1
  | .scalarType _ => 1

/-- Fuel needed to derive the serializers of a field list, ignoring the
cost of input objects not yet memoized. -/
def neededFields : List (String × TypeRef) → Nat
  | [] => 1
  | (_, ft) :: rest => ft.weight + 2 + neededFields rest

/-- Total fuel cost of the environment entries whose input object name is
not yet a key of the memoization table. -/
def pendingWeight (env : List (String × List (String × TypeRef)))
    (table : List (String × Option Ser)) : Nat :=
  match env with
  | [] => 0
  | (n, fs) :: rest =>
    (if (List.lookup n table).isSome then 0 else neededFields fs + 1)
      + pendingWeight rest table

/-- Fuel sufficient to derive a serializer for the given type over the
given environment starting from an empty memoization table. -/
def serFuel (env : List (String × List (String × TypeRef))) (t : TypeRef) : Nat :=
  t.weight + pendingWeight env [] + 1

/-- AST value nodes produced by the derived serializers. Positions that
Python types as Optional ValueNode (an object field value, a list element,
the value of an argument node) carry an Option. -/
inductive ValueNode where
  | objectValue (fields : List (String × Option ValueNode))
  | listValue (values : List (Option ValueNode))
  | enumValue (value : String)
  | scalarValue (v : GValue) (typeName : String)

/-- The schema-derived context the DSL operates in: the input object
environment for serializer derivation, and the external graphql-core
serialization hooks, abstracted as functions (a none result models a
raised exception, or for ast from value its possible None result). -/
structure DslEnv where
  inputObjects : List (String × List (String × TypeRef))
  enumSerialize : String → GValue → Option String
  scalarSerialize : String → GValue → Option GValue
  astFromValue : GValue → String → Option ValueNode

mutual

/-- Application of a derived serializer to a Python value, following the
closures of gql/dsl.py lines 320-342. Errors are the Python exceptions the
closures can raise: calling the captured placeholder None, iterating the
items of a non-dict, indexing the captured serializers dict with an
unknown key, or a raising serialize hook. -/
def applySer (env : DslEnv) : Ser → GValue → Except String (Option ValueNode)
  | .obj fieldSers, .dict kvs =>
    match applyObjFields env fieldSers kvs with
    | .error e => .error e
    | .ok fs => .ok (some (.objectValue fs))
  | .obj _, _ => .error "AttributeError: value has no attribute items"
  | .list inner, .list vs =>
    match applyListValues env inner vs with
    | .error e => .error e
    | .ok xs => .ok (some (.listValue xs))
  | .list _, _ => .error "TypeError: value is not iterable"
  | .enum name, v =>
    match env.enumSerialize name v with
    | some s => .ok (some (.enumValue s))
    | none => .error "enum serialize raised"
  | .scalar name, v =>
    match env.scalarSerialize name v with
    | some sv => .ok (env.astFromValue sv name)
    | none => .error "scalar serialize raised"

/-- Application of a possibly-placeholder serializer: applying the
placeholder is the Python crash of calling None. -/
def applySerOpt (env : DslEnv) : Option Ser → GValue → Except String (Option ValueNode)
  | none, _ => .error "TypeError: NoneType object is not callable"
  | some s, v => applySer env s v

/-- The object value comprehension: one ObjectFieldNode per item of the
value, looking the field serializer up in the captured dict. -/
def applyObjFields (env : DslEnv) (fieldSers : List (String × Option Ser)) :
    List (String × GValue) → Except String (List (String × Option ValueNode))
  | [] => .ok []
  | (k, v) :: rest =>
    match List.lookup k fieldSers with
    | none => .error ("KeyError: " ++ k)
    | some os =>
      match applySerOpt env os v with
      | .error e => .error e
      | .ok node =>
        match applyObjFields env fieldSers rest with
        | .error e => .error e
        | .ok fs => .ok ((k, node) :: fs)

/-- The list value comprehension: the inner serializer applied to each
element. -/
def applyListValues (env : DslEnv) (inner : Option Ser) :
    List GValue → Except String (List (Option ValueNode))
  | [] => .ok []
  | v :: rest =>
    match applySerOpt env inner v with
    | .error e => .error e
    | .ok node =>
      match applyListValues env inner rest with
      | .error e => .error e
      | .ok xs => .ok (node :: xs)

end

/-- GraphQL AST field node as mutated by the DSL: an optional alias, the
field name, the argument list and an optional selection set. -/
inductive FieldNode where
  | mk (aliasName : Option String) (name : String)
       (arguments : List (String × Option ValueNode))
       (selectionSet : Option (List FieldNode))

/-- The alias of a field node. -/
def FieldNode.aliasName : FieldNode → Option String
  | .mk a _ _ _ => a

/-- The name of a field node. -/
def FieldNode.name : FieldNode → String
  | .mk _ n _ _ => n

/-- The argument nodes of a field node. -/
def FieldNode.arguments : FieldNode → List (String × Option ValueNode)
  | .mk _ _ args _ => args

/-- The selection set of a field node. -/
def FieldNode.selectionSet : FieldNode → Option (List FieldNode)
  | .mk _ _ _ s => s

/-- Assignment to the selection set attribute of a field node. -/
def FieldNode.setSelectionSet : FieldNode → Option (List FieldNode) → FieldNode
  | .mk a n args _, s => .mk a n args s

/-- Assignment to the arguments attribute of a field node. -/
def FieldNode.setArguments : FieldNode → List (String × Option ValueNode) → FieldNode
  | .mk a n _ s, args => .mk a n args s

/-- Assignment to the alias attribute of a field node. -/
def FieldNode.setAlias : FieldNode → Option String → FieldNode
  | .mk _ n args s, a => .mk a n args s

/-- The DSLField of gql/dsl.py: the name of its defining type, the
argument definitions of the underlying GraphQL field (name to type), the
AST field under construction, and the serializer memoization table. -/
structure DSLField where
  typeName : String
  fieldArgs : List (String × TypeRef)
  astField : FieldNode
  knownArgSerializers : List (String × Option Ser)

/-- DSLField construction: a fresh AST field node carrying the formatted
name and an empty argument list, and an empty memoization table. -/
def DSLField.new (name : String) (typeName : String)
    (fieldArgs : List (String × TypeRef)) : DSLField :=
  { typeName := typeName
    fieldArgs := fieldArgs
    astField := .mk none name [] none
    knownArgSerializers := [] }

/-- A Python object passed where a DSLField is expected: either an actual
DSLField, or any other object (carrying only its printed form, which is
all the error message uses). -/
inductive DSLArgObj where
  | field (f : DSLField)
  | other (shown : String)

/-- DSLField.get ast fields (gql/dsl.py lines 217-235): collect the AST
node of every field in order, raising TypeError on the first value that is
not a DSLField. -/
def getAstFields : List DSLArgObj → Except String (List FieldNode)
  | [] => .ok []
  | .field f :: rest =>
    match getAstFields rest with
    | .error e => .error e
    | .ok fs => .ok (f.astField :: fs)
  | .other shown :: _ =>
    .error ("TypeError: Received incompatible field: " ++ shown ++ ".")

/-- DSLField.select (gql/dsl.py lines 237-265). Methods that mutate the
field are modelled as state transformers; a raised exception carries the
state as it stands at the raise, so that atomicity is expressible. The
added selections are computed, and can raise, before the AST is touched;
then they either initialize or extend the selection set. -/
def DSLField.select (s : DSLField) (fields : List DSLArgObj) :
    Except (String × DSLField) DSLField :=
  match getAstFields fields with
  | .error msg => .error (msg, s)
  | .ok added =>
    match s.astField.selectionSet with
    | none => .ok { s with astField := s.astField.setSelectionSet (some added) }
    | some cur =>
      .ok { s with astField := s.astField.setSelectionSet (some (cur ++ added)) }

/-- DSLField.alias: set the response alias on the AST field. -/
def DSLField.aliasSet (s : DSLField) (a : String) : DSLField :=
  { s with astField := s.astField.setAlias (some a) }

/-- The loop of DSLField.args (gql/dsl.py lines 298-307): for each keyword
in order, look the argument definition up (KeyError when absent), derive
its serializer (mutating the memoization table), serialize the value and
accumulate an argument node. The serFuel bound is a sufficient fuel for
the derivation, which in Python is plain recursion. Only after the loop
does DSLField.args assign the AST arguments. -/
def DSLField.argsLoop (env : DslEnv) :
    DSLField → List (String × GValue) → List (String × Option ValueNode) →
    Except (String × DSLField) (DSLField × List (String × Option ValueNode))
  | s, [], acc => .ok (s, acc)
  | s, (name, value) :: rest, acc =>
    match List.lookup name s.fieldArgs with
    | none => .error ("KeyError: Argument " ++ name ++ " does not exist in Field.", s)
    | some argType =>
      match deriveSer env.inputObjects (serFuel env.inputObjects argType) argType
          s.knownArgSerializers with
      | none => .error ("RecursionError: maximum recursion depth exceeded", s)
      | some (ser, table2) =>
        let s2 : DSLField := { s with knownArgSerializers := table2 }
        match applySerOpt env ser value with
        | .error msg => .error (msg, s2)
        | .ok node => DSLField.argsLoop env s2 rest (acc ++ [(name, node)])

/-- DSLField.args (gql/dsl.py lines 281-309): run the keyword loop, then
append the collected argument nodes to the AST field arguments. -/
def DSLField.args (env : DslEnv) (s : DSLField) (kwargs : List (String × GValue)) :
    Except (String × DSLField) DSLField :=
  match DSLField.argsLoop env s kwargs [] with
  | .error e => .error e
  | .ok (s2, added) =>
    .ok { s2 with astField := s2.astField.setArguments (s2.astField.arguments ++ added) }

/-- A GraphQL field definition as the DSL consumes it: its argument
definitions. -/
structure FieldDef where
  args : List (String × TypeRef)

/-- A GraphQL object or interface type as the DSL consumes it: its name
and its field map. -/
structure DSLTypeObj where
  name : String
  fields : List (String × FieldDef)

/-- Split a character list on underscores; the result is always
non-empty. -/
def splitOnUnderscore : List Char → List (List Char)
  | [] => [[]]
  | c :: rest =>
    match splitOnUnderscore rest with
    | [] => [[]]
    | w :: ws => if c = '_' then [] :: w :: ws else (c :: w) :: ws

/-- Upper-case the first character of a word. -/
def capitalizeWord : List Char → List Char
  | [] => []
  | c :: rest => c.toUpper :: rest

/-- Python str.lower over the characters of a string. -/
def strLower (s : String) : String :=
  String.mk (s.toList.map Char.toLower)

/-- Modelled from the spec: gql/utils.py holding the to camel case helper
is not among the provided sources; the specification states only that
field lookup is tried first verbatim and then in camelCase. The usual
snake case to camelCase conversion is modelled: the name is split on
underscores, the first component kept as is, the remaining components
capitalized and appended. -/
def to_camel_case (s : String) : String :=
  match splitOnUnderscore s.toList with
  | [] => ""
  | w :: ws => String.mk (w ++ (ws.map capitalizeWord).flatten)

/-- DSLType attribute access (gql/dsl.py lines 163-177): the attribute
name is tried verbatim against the type fields, then its camelCase
conversion; the first match yields a DSLField carrying the matching
formatted name; otherwise AttributeError. -/
def DSLType.getattrField (t : DSLTypeObj) (name : String) : Except String DSLField :=
  match List.lookup name t.fields with
  | some fd => .ok (DSLField.new name t.name fd.args)
  | none =>
    match List.lookup (to_camel_case name) t.fields with
    | some fd => .ok (DSLField.new (to_camel_case name) t.name fd.args)
    | none =>
      .error ("AttributeError: Field " ++ name ++ " does not exist in type "
        ++ t.name ++ ".")

/-- GraphQL operation kinds (graphql OperationType). -/
inductive OperationType where
  | query
  | mutation
  | subscription
  deriving Repr, DecidableEq

/-- OperationType construction from the lowered root type name; an
unlisted string raises ValueError in Python. -/
def operationTypeOf : String → Option OperationType
  | "query" => some .query
  | "mutation" => some .mutation
  | "subscription" => some .subscription
  | _ => none

/-- The document dsl gql produces: a single operation definition holding
the operation kind and the root selections. -/
structure DocumentNode where
  operation : OperationType
  selections : List FieldNode

/-- Python exceptions raised by dsl gql. -/
inductive PyDslError where
  | typeError (msg : String)
  | assertionError (msg : String)
  | indexError
  | valueError (msg : String)

/-- The checking loop of dsl gql (gql/dsl.py lines 73-81): every argument
must be a DSLField (TypeError otherwise) whose defining type is one of
Query, Mutation or Subscription (AssertionError otherwise). -/
def checkRootFields : List DSLArgObj → Except PyDslError Unit
  | [] => .ok ()
  | .other shown :: _ =>
    .error (.typeError ("fields must be instances of DSLField. Received type: " ++ shown))
  | .field f :: rest =>
    if f.typeName = "Query" || f.typeName = "Mutation" || f.typeName = "Subscription" then
      checkRootFields rest
    else
      .error (.assertionError
        ("fields should be root types (Query, Mutation or Subscription). Received: "
          ++ f.typeName))

/-- dsl gql (gql/dsl.py lines 43-96): check the arguments, take the
operation kind from the first field (an out-of-bounds index on an empty
argument tuple), and build a single-operation document whose selections
are the AST nodes of the fields in argument order. -/
def dsl_gql (fields : List DSLArgObj) : Except PyDslError DocumentNode :=
  match checkRootFields fields with
  | .error e => .error e
  | .ok _ =>
    match fields with
    | [] => .error .indexError
    | .field f :: _ =>
      match operationTypeOf (strLower f.typeName) with
      | some op =>
        match getAstFields fields with
        | .error msg => .error (.typeError msg)
        | .ok sels => .ok { operation := op, selections := sels }
      | none => .error (.valueError "invalid OperationType")
    | .other _ :: _ => .error (.typeError "unreachable: non DSLField already rejected")

/-- A concrete Query-rooted field, for concrete instantiations. -/
def sampleHeroField : DSLField :=
  DSLField.new "hero" "Query" [("episode", .enumType "Episode")]

/-- A concrete Mutation-rooted field, for concrete instantiations. -/
def sampleCreateReviewField : DSLField :=
  DSLField.new "createReview" "Mutation" []

/-- A concrete non-root field, for concrete instantiations. -/
def sampleNameField : DSLField :=
  DSLField.new "name" "Character" []

/-- A concrete DSL type with a camelCase field, for concrete
instantiations of the attribute lookup theorem. -/
def sampleCharacterType : DSLTypeObj :=
  { name := "Character"
    fields := [("name", { args := [] }), ("appearsIn", { args := [] })] }

/-- A concrete DSL environment with a self-referential input object type,
for concrete instantiations of the serializer theorems. -/
def sampleCyclicEnv : List (String × List (String × TypeRef)) :=
  [("ReviewInput", [("stars", .scalarType "Int"),
                    ("parent", .inputObject "ReviewInput")])]

/-- Modelled from the spec: the websockets subscription transport is not
among the provided sources (only its tests are). An inbound WebSocket
message per spec section 6: a binary frame, or a text frame carrying its
parsed JSON, none when the text is not valid JSON. -/
inductive WsMessage where
  | bytes (size : Nat)
  | text (parsed : Option Json)

/-- Modelled from the spec: the parsed form of a server-to-client frame of
the graphql-ws subprotocol (spec sections 4.6 and 6). -/
inductive WsAnswer where
  | connectionAck
  | keepAlive
  | connectionError (payload : Option Json)
  | dataAnswer (id : String) (payload : Json)
  | errorAnswer (id : String) (payload : Json)
  | complete (id : String)

/-- Modelled from the spec: the transport error taxonomy entry for wire
format violations. -/
inductive WsError where
  | transportProtocolError (msg : String)

/-- Modelled from the spec: handling of an operation-scoped frame (types
data, error, complete): a string id is required; a data payload must be
present and be a JSON object carrying data or errors; an error payload
must be present. -/
def parseOperationAnswer (answerType : String) (fs : List (String × Json)) :
    Except WsError WsAnswer :=
  match List.lookup "id" fs with
  | some (.str answerId) =>
    if answerType = "data" then
      match List.lookup "payload" fs with
      | some (.obj pfs) =>
        if (List.lookup "data" pfs).isSome || (List.lookup "errors" pfs).isSome then
          .ok (.dataAnswer answerId (.obj pfs))
        else .error (.transportProtocolError "payload does not contain data or errors")
      | some _ => .error (.transportProtocolError "payload is not a dict")
      | none => .error (.transportProtocolError "payload is missing")
    else if answerType = "error" then
      match List.lookup "payload" fs with
      | some p => .ok (.errorAnswer answerId p)
      | none => .error (.transportProtocolError "payload is missing")
    else .ok (.complete answerId)
  | _ => .error (.transportProtocolError "answer id is missing or not a string")

/-- Modelled from the spec: parsing of one inbound WebSocket frame (spec
section 4.6, lines on inbound frame handling, and section 6). Binary
frames, unparseable text, non-object JSON, a missing or non-string type
field, an unknown type, a missing id on operation-scoped frames and a
missing or non-object data payload are all TransportProtocolError. -/
def parseAnswer (msg : WsMessage) : Except WsError WsAnswer :=
  match msg with
  | .bytes _ => .error (.transportProtocolError "Binary data received instead of text")
  | .text none => .error (.transportProtocolError "Not a JSON answer")
  | .text (some j) =>
    match j with
    | .obj fs =>
      match List.lookup "type" fs with
      | some (.str ty) =>
        if ty = "connection_ack" then .ok .connectionAck
        else if ty = "ka" then .ok .keepAlive
        else if ty = "connection_error" then
          .ok (.connectionError (List.lookup "payload" fs))
        else if ty = "data" then parseOperationAnswer "data" fs
        else if ty = "error" then parseOperationAnswer "error" fs
        else if ty = "complete" then parseOperationAnswer "complete" fs
        else .error (.transportProtocolError "Unknown answer type")
      | some _ => .error (.transportProtocolError "answer type is not a string")
      | none => .error (.transportProtocolError "answer type is missing")
    | _ => .error (.transportProtocolError "answer is not a dict")

/-- Whether a JSON value is an object. -/
def Json.isObj : Json → Bool
  | .obj _ => true
  | _ => false

/-- Table t2 resolves every key that table t1 resolves, to the same value:
the relation between a serializer memoization table and any later state of
it, since derivation only adds entries and completes its own placeholder. -/
def tablePreserves (t1 t2 : List (String × Option Ser)) : Prop :=
  ∀ k v, List.lookup k t1 = some v → List.lookup k t2 = some v

/-- A concrete DSL environment bundling the cyclic input object
environment with trivial serialization hooks, for concrete
instantiations. -/
def sampleDslEnv : DslEnv :=
  { inputObjects := sampleCyclicEnv
    enumSerialize := fun _ _ => some "NEWHOPE"
    scalarSerialize := fun _ v => some v
    astFromValue := fun v name => some (.scalarValue v name) }

/-- A concrete client whose transport succeeds immediately, used to
instantiate theorems about Client.execute on a concrete input. -/
def wExecClient : Client :=
  { schema := some fun _ => []
    transport := fun _ _ => .ok { data := some (.str "d"), errors := none }
    retries := 0
    typeAdaptor := none }

/-- A concrete client with two retries whose transport raises on every
attempt, used to instantiate the retry theorems on a concrete input. -/
def wRetryClient : Client :=
  { schema := none
    transport := fun _ _ => .error "boom"
    retries := 2
    typeAdaptor := none }

/-! Helper lemmas about the retry loop and the execute pipeline. -/

/-- When the retry count has reached the bound, the loop raises RetryError
with the current count and last exception. -/
theorem getResultLoop_exit (t : Nat → Except String ExecutionResult)
    (retries rc : Nat) (last : Option String) (h : ¬ rc < retries) :
    getResultLoop t retries rc last = .error (.retryError rc last) := by
  rw [getResultLoop, dif_neg h]

/-- A successful attempt returns its result immediately. -/
theorem getResultLoop_ok_step (t : Nat → Except String ExecutionResult)
    (retries rc : Nat) (last : Option String) (r : ExecutionResult)
    (h : rc < retries) (he : t rc = .ok r) :
    getResultLoop t retries rc last = .ok r := by
  rw [getResultLoop, dif_pos h, he]

/-- A failing attempt records the exception and moves to the next count. -/
theorem getResultLoop_fail_step (t : Nat → Except String ExecutionResult)
    (retries rc : Nat) (last : Option String) (e : String)
    (h : rc < retries) (he : t rc = .error e) :
    getResultLoop t retries rc last = getResultLoop t retries (rc + 1) (some e) := by
  rw [getResultLoop, dif_pos h, he]

/-- When every attempt below the bound fails, the loop exhausts the
remaining attempts and raises RetryError carrying the bound as count and
the exception of the last attempt. -/
theorem getResultLoop_all_fail (t : Nat → Except String ExecutionResult)
    (retries : Nat) (errs : Nat → String)
    (hfail : ∀ i, i < retries → t i = .error (errs i)) :
    ∀ d rc last, rc + d + 1 = retries →
      getResultLoop t retries rc last =
        .error (.retryError retries (some (errs (retries - 1)))) := by
  intro d
  induction d with
  | zero =>
    intro rc last h
    have hlt : rc < retries := by omega
    rw [getResultLoop_fail_step t retries rc last (errs rc) hlt (hfail rc hlt)]
    rw [getResultLoop_exit t retries (rc + 1) (some (errs rc)) (by omega)]
    have h2 : retries - 1 = rc := by omega
    have h1 : rc + 1 = retries := by omega
    rw [h2, h1]
  | succ d ih =>
    intro rc last h
    have hlt : rc < retries := by omega
    rw [getResultLoop_fail_step t retries rc last (errs rc) hlt (hfail rc hlt)]
    exact ih (rc + 1) (some (errs rc)) (by omega)

/-- When the attempts before k fail and attempt k succeeds, the loop
returns the result of attempt k. -/
theorem getResultLoop_first_ok (t : Nat → Except String ExecutionResult)
    (retries k : Nat) (r : ExecutionResult)
    (hk : k < retries) (hok : t k = .ok r)
    (hfail : ∀ i, i < k → ∃ e, t i = .error e) :
    ∀ d rc last, rc + d = k → getResultLoop t retries rc last = .ok r := by
  intro d
  induction d with
  | zero =>
    intro rc last h
    have hrc : rc = k := by omega
    subst hrc
    exact getResultLoop_ok_step t retries rc last r hk hok
  | succ d ih =>
    intro rc last h
    obtain ⟨e, he⟩ := hfail rc (by omega)
    rw [getResultLoop_fail_step t retries rc last e (by omega) he]
    exact ih (rc + 1) (some e) (by omega)

/-- When validation passes (or no schema is known), an error from the
result acquisition propagates out of Client.execute unchanged. -/
theorem execute_eq_error_of_getResult (c : Client) (doc : String)
    (hval : c.schema.elim True (fun v => v doc = []))
    (e : ClientError) (hg : c.getResult doc = .error e) :
    c.execute doc = .error e := by
  unfold Client.execute
  cases hs : c.schema with
  | none => simp [hs, hg]
  | some v =>
    rw [hs] at hval
    have hv : v doc = [] := hval
    simp [hs, Client.validate, hv, hg]

/-! Claim C1. -/

/-- C1: Client.execute validates the document when a schema is known,
raising the first validation error if validation fails; on the transport
result, a non-empty errors list raises GQLServerError wrapping the raw
first entry (the type adaptor is not applied to it), and otherwise the
configured type adaptor, if any, is applied to the data and the possibly
adapted data is returned. -/
theorem client_execute_spec (c : Client) (doc : String)
    (result : ExecutionResult) (hok : c.getResult doc = .ok result) :
    (∀ v e rest, c.schema = some v → v doc = e :: rest →
        c.execute doc = .error (.validationError e)) ∧
    (c.schema.elim True (fun v => v doc = []) →
      ((∀ e es, result.errors = some (.arr (e :: es)) →
          c.execute doc = .error (.gqlServerError e)) ∧
       ((result.errors = none ∨ result.errors = some (.arr [])) →
          c.execute doc = .ok (match c.typeAdaptor with
            | some adaptor => adaptor result.data
            | none => result.data)))) := by
  constructor
  · intro v e rest hs hv
    unfold Client.execute
    simp [hs, Client.validate, hv]
  · intro hval
    have hpipe : c.execute doc =
        match result.errors with
        | some errs =>
          if errs.truthy then
            match errs.index0 with
            | some e => .error (.gqlServerError e)
            | none => .error .pyCrash
          else c.finishExecute result.data
        | none => c.finishExecute result.data := by
      unfold Client.execute
      cases hs : c.schema with
      | none => simp [hs, hok]
      | some v =>
        rw [hs] at hval
        have hv : v doc = [] := hval
        simp [hs, Client.validate, hv, hok]
    constructor
    · intro e es herr
      rw [hpipe, herr]
      simp [Json.truthy, Json.index0]
    · intro hnone
      have hfin : c.execute doc = c.finishExecute result.data := by
        rcases hnone with h | h <;> rw [hpipe, h]
        simp [Json.truthy]
      rw [hfin]
      unfold Client.finishExecute
      cases c.typeAdaptor <;> rfl

/-- C1 witness: the theorem applied to a concrete client whose transport
delivers a result with no errors. -/
theorem client_execute_spec_witness :
    wExecClient.execute "q" = .ok (some (.str "d")) :=
  ((client_execute_spec wExecClient "q"
      { data := some (.str "d"), errors := none } rfl).2 rfl).2 (Or.inl rfl)

/-! Claim C2. -/

/-- C2: with retries = n greater than zero and validation passing, when
the transport raises on every one of the first n attempts, Client.execute
fails with RetryError carrying count n and the exception of the final
attempt (attempt n - 1); since the hypotheses constrain only attempts
below n, no later attempt influences the outcome. When the attempts
before some k below n fail and attempt k succeeds, the result acquisition
returns the result of attempt k, with attempts beyond k unconstrained. -/
theorem client_retry_spec (c : Client) (doc : String) (n : Nat)
    (hn : 0 < n) (hr : c.retries = n)
    (hval : c.schema.elim True (fun v => v doc = [])) :
    (∀ errs : Nat → String,
        (∀ i, i < n → c.transport doc i = .error (errs i)) →
        c.execute doc = .error (.retryError n (some (errs (n - 1))))) ∧
    (∀ k r, k < n → (∀ i, i < k → ∃ e, c.transport doc i = .error e) →
        c.transport doc k = .ok r → c.getResult doc = .ok r) := by
  constructor
  · intro errs hfail
    apply execute_eq_error_of_getResult c doc hval
    unfold Client.getResult
    rw [hr, if_neg (by omega)]
    exact getResultLoop_all_fail (c.transport doc) n errs hfail (n - 1) 0 none (by omega)
  · intro k r hk hfail hok
    unfold Client.getResult
    rw [hr, if_neg (by omega)]
    exact getResultLoop_first_ok (c.transport doc) n k r hk hok hfail k 0 none (by omega)

/-- C2 witness: the theorem applied to a concrete client with two retries
whose transport raises on every attempt. -/
theorem client_retry_spec_witness :
    wRetryClient.execute "q" = .error (.retryError 2 (some "boom")) :=
  (client_retry_spec wRetryClient "q" 2 (by decide) rfl trivial).1
    (fun _ => "boom") (fun _ _ => rfl)

/-! Claim C3. -/

/-- C3 counterexample: supplying only a schema, together with a transport
and fetch schema from transport, fails the assert guarding the fetch even
though at most one of schema, introspection and type def is supplied, so
the claim that every such construction is accepted is false. -/
theorem clientInit_claim_false : ¬ clientInitClaim := fun h =>
  absurd ((h true false false true true true).2 (by decide)) (by decide)

/-- C3 amended: over all constructor argument combinations in which the
schema is not combined with fetch schema from transport on a transport,
supplying more than one of schema, introspection and type def fails
construction with an assertion error, and supplying at most one of them
is accepted. -/
theorem clientInit_mutual_exclusion (s i t tr f fd : Bool)
    (hfetch : ¬(s = true ∧ tr = true ∧ f = true)) :
    (1 < suppliedCount s i t → (clientInit s i t tr f fd).isOk = false) ∧
    (suppliedCount s i t ≤ 1 → (clientInit s i t tr f fd).isOk = true) := by
  revert hfetch
  revert s i t tr f fd
  decide

/-- C3 witness: the amended theorem applied to concrete combinations, one
accepted (introspection alone) and one rejected (schema plus
introspection). -/
theorem clientInit_mutual_exclusion_witness :
    (clientInit false true false false false false).isOk = true ∧
    (clientInit true true false false false false).isOk = false :=
  ⟨(clientInit_mutual_exclusion false true false false false false
      (by decide)).2 (by decide),
   (clientInit_mutual_exclusion true true false false false false
      (by decide)).1 (by decide)⟩

/-! Claim C7. -/

/-- C7: the requests transport execute on an HTTP response: when the body
is not JSON, not a JSON object, or a JSON object carrying neither a data
nor an errors key, it raises from the HTTP status (the status error for
4xx and 5xx statuses, and otherwise the HTTPError saying the server did
not return a GraphQL result); otherwise it returns an ExecutionResult
whose data and errors are the values of the respective keys, an absent
key mapping to none. -/
theorem requestsExecute_spec (status : Nat) (body : Option Json) :
    ((match body with
      | some (.obj fs) =>
        List.lookup "errors" fs = none ∧ List.lookup "data" fs = none
      | _ => True) →
      requestsExecute status body =
        (if raiseForStatus status then .error (.httpStatusError status)
         else .error .notAGraphQLResult)) ∧
    (∀ fs, body = some (.obj fs) →
      ((List.lookup "errors" fs).isSome ∨ (List.lookup "data" fs).isSome) →
      requestsExecute status body =
        .ok { data := List.lookup "data" fs, errors := List.lookup "errors" fs }) := by
  constructor
  · intro hbad
    unfold requestsExecute
    match body with
    | none => simp
    | some .null => simp
    | some (.boolean b) => simp
    | some (.num n) => simp
    | some (.str s) => simp
    | some (.arr xs) => simp
    | some (.obj fs) =>
      obtain ⟨h1, h2⟩ := hbad
      simp [h1, h2]
  · intro fs hbody hsome
    subst hbody
    unfold requestsExecute
    rcases hsome with h | h
    · rw [Option.isSome_iff_exists] at h
      obtain ⟨v, hv⟩ := h
      simp [hv]
    · rw [Option.isSome_iff_exists] at h
      obtain ⟨v, hv⟩ := h
      simp [hv]

/-- C7 witness: the theorem applied to a 404 response with a non-JSON body
and to a 200 response carrying a data key. -/
theorem requestsExecute_spec_witness :
    requestsExecute 404 none = .error (.httpStatusError 404) ∧
    requestsExecute 200 (some (.obj [("data", .null)])) =
      .ok { data := some .null, errors := none } :=
  ⟨(requestsExecute_spec 404 none).1 trivial,
   (requestsExecute_spec 200 (some (.obj [("data", .null)]))).2
     [("data", .null)] rfl (Or.inr rfl)⟩

/-! Claim C4. -/

/-- C4: evaluation of dsl gql at the failing input, a Query-rooted field
followed by a Mutation-rooted field. The docstring of dsl gql states that
all fields must share the same root type, but no check enforces it: the
mixed-root call is accepted and the operation kind of the resulting
document is taken from the first field alone. -/
theorem dsl_gql_accepts_mixed_roots :
    dsl_gql [.field sampleHeroField, .field sampleCreateReviewField] =
      .ok { operation := .query,
            selections := [sampleHeroField.astField,
                           sampleCreateReviewField.astField] } := rfl

/-! Claim C10. -/

/-- C10: dsl gql on an empty argument list passes the checking loop
without raising any error of the DSL taxonomy and then fails on the
unconditional access to the first field with an IndexError; in particular
it does not return a document. -/
theorem dsl_gql_empty_index_error : dsl_gql [] = .error .indexError := rfl

/-! Claim C6. -/

/-- C6: DSLType attribute lookup tries the name verbatim against the type
fields first, then its camelCase conversion, yielding a DSLField carrying
the first matching form; when neither form exists it fails with the
AttributeError naming the field and the type. -/
theorem dsltype_getattr_spec (t : DSLTypeObj) (name : String) :
    (∀ fd, List.lookup name t.fields = some fd →
        DSLType.getattrField t name = .ok (DSLField.new name t.name fd.args)) ∧
    (List.lookup name t.fields = none →
      ∀ fd, List.lookup (to_camel_case name) t.fields = some fd →
        DSLType.getattrField t name =
          .ok (DSLField.new (to_camel_case name) t.name fd.args)) ∧
    (List.lookup name t.fields = none →
      List.lookup (to_camel_case name) t.fields = none →
      DSLType.getattrField t name =
        .error ("AttributeError: Field " ++ name ++ " does not exist in type "
          ++ t.name ++ ".")) := by
  refine ⟨?_, ?_, ?_⟩
  · intro fd h
    simp [DSLType.getattrField, h]
  · intro h1 fd h2
    simp [DSLType.getattrField, h1, h2]
  · intro h1 h2
    simp [DSLType.getattrField, h1, h2]

/-- C6 witness: the theorem applied to a concrete type holding a field
named appearsIn, looked up as appears in with an underscore: the verbatim
lookup misses and the camelCase fallback hits. -/
theorem dsltype_getattr_spec_witness :
    DSLType.getattrField sampleCharacterType "appears_in" =
      .ok (DSLField.new "appearsIn" "Character" []) :=
  (dsltype_getattr_spec sampleCharacterType "appears_in").2.1 rfl { args := [] } rfl

/-! Claim C9. -/

/-- The collection loop of get ast fields raises TypeError whenever any
argument is not a DSLField. -/
theorem getAstFields_error_of_other (fields : List DSLArgObj)
    (h : ∃ shown, DSLArgObj.other shown ∈ fields) :
    ∃ msg, getAstFields fields = .error msg := by
  obtain ⟨shown, hmem⟩ := h
  induction fields with
  | nil => cases hmem
  | cons hd rest ih =>
    cases hd with
    | other r => exact ⟨_, rfl⟩
    | field f =>
      have hrest : DSLArgObj.other shown ∈ rest := by
        rcases List.mem_cons.mp hmem with h | h
        · exact DSLArgObj.noConfusion h
        · exact h
      obtain ⟨msg, he⟩ := ih hrest
      exact ⟨msg, by simp [getAstFields, he]⟩

/-- The keyword loop of DSLField.args raises before the AST field is
touched whenever some keyword names an unknown argument: the error state
carries the AST field unchanged. -/
theorem argsLoop_error_of_unknown (env : DslEnv) :
    ∀ (kwargs : List (String × GValue)) (s : DSLField)
      (acc : List (String × Option ValueNode)),
      (∃ nm value, (nm, value) ∈ kwargs ∧ List.lookup nm s.fieldArgs = none) →
      ∃ msg s2, DSLField.argsLoop env s kwargs acc = .error (msg, s2) ∧
        s2.astField = s.astField := by
  intro kwargs
  induction kwargs with
  | nil =>
    intro s acc h
    obtain ⟨nm, value, hmem, _⟩ := h
    cases hmem
  | cons kv rest ih =>
    intro s acc h
    obtain ⟨nm, value, hmem, hunk⟩ := h
    obtain ⟨name, v⟩ := kv
    cases hat : List.lookup name s.fieldArgs with
    | none =>
      exact ⟨"KeyError: Argument " ++ name ++ " does not exist in Field.", s,
        by simp [DSLField.argsLoop, hat], rfl⟩
    | some argType =>
      have hrest : (nm, value) ∈ rest := by
        rcases List.mem_cons.mp hmem with heq | h
        · exfalso
          injection heq with h1 h2
          subst h1
          rw [hunk] at hat
          cases hat
        · exact h
      cases hds : deriveSer env.inputObjects (serFuel env.inputObjects argType)
          argType s.knownArgSerializers with
      | none =>
        exact ⟨"RecursionError: maximum recursion depth exceeded", s,
          by simp [DSLField.argsLoop, hat, hds], rfl⟩
      | some pr =>
        obtain ⟨ser, table2⟩ := pr
        cases has : applySerOpt env ser v with
        | error msg =>
          refine ⟨msg, { s with knownArgSerializers := table2 }, ?_, rfl⟩
          simp [DSLField.argsLoop, hat, hds, has]
        | ok node =>
          obtain ⟨msg, s3, heq, hast⟩ :=
            ih { s with knownArgSerializers := table2 } (acc ++ [(name, node)])
              ⟨nm, value, hrest, hunk⟩
          refine ⟨msg, s3, ?_, hast⟩
          simp [DSLField.argsLoop, hat, hds, has, heq]

/-- C9: the DSL field mutators are atomic on invalid input: a select call
containing any non-DSLField argument raises with the AST field unchanged,
and an args call containing any keyword naming an unknown argument raises
with the AST field unchanged, because inputs are validated and converted
before the AST is assigned. -/
theorem dsl_mutators_atomic (env : DslEnv) (s : DSLField)
    (fields : List DSLArgObj) (kwargs : List (String × GValue)) :
    ((∃ shown, DSLArgObj.other shown ∈ fields) →
      ∃ msg s2, DSLField.select s fields = .error (msg, s2) ∧
        s2.astField = s.astField) ∧
    ((∃ nm value, (nm, value) ∈ kwargs ∧ List.lookup nm s.fieldArgs = none) →
      ∃ msg s2, DSLField.args env s kwargs = .error (msg, s2) ∧
        s2.astField = s.astField) := by
  constructor
  · intro h
    obtain ⟨msg, he⟩ := getAstFields_error_of_other fields h
    exact ⟨msg, s, by simp [DSLField.select, he], rfl⟩
  · intro h
    obtain ⟨msg, s2, heq, hast⟩ := argsLoop_error_of_unknown env kwargs s [] h
    exact ⟨msg, s2, by simp [DSLField.args, heq], hast⟩

/-- C9 witness: the theorem applied to a concrete field, selecting a plain
string instead of a DSLField and passing an unknown keyword argument. -/
theorem dsl_mutators_atomic_witness :
    (∃ msg s2, DSLField.select sampleHeroField [.other "hero"] = .error (msg, s2) ∧
        s2.astField = sampleHeroField.astField) ∧
    (∃ msg s2,
        DSLField.args sampleDslEnv sampleHeroField [("invalid_arg", .int 5)] =
          .error (msg, s2) ∧
        s2.astField = sampleHeroField.astField) :=
  ⟨(dsl_mutators_atomic sampleDslEnv sampleHeroField [.other "hero"] []).1
      ⟨"hero", List.mem_singleton.mpr rfl⟩,
   (dsl_mutators_atomic sampleDslEnv sampleHeroField [] [("invalid_arg", .int 5)]).2
      ⟨"invalid_arg", .int 5, List.mem_singleton.mpr rfl, rfl⟩⟩

/-! Claim C8. -/

/-- C8: every inbound WebSocket frame that is binary, unparseable JSON, a
JSON object without a type field, of unknown type, an operation-scoped
frame without an id, or a data frame whose payload is missing or not an
object, makes the transport fail with TransportProtocolError. -/
theorem ws_protocol_errors :
    (∀ size, ∃ m, parseAnswer (.bytes size) = .error (.transportProtocolError m)) ∧
    (∃ m, parseAnswer (.text none) = .error (.transportProtocolError m)) ∧
    (∀ fs, List.lookup "type" fs = none →
      ∃ m, parseAnswer (.text (some (.obj fs))) = .error (.transportProtocolError m)) ∧
    (∀ fs ty, List.lookup "type" fs = some (.str ty) →
      ty ∉ ["connection_ack", "ka", "connection_error", "data", "error", "complete"] →
      ∃ m, parseAnswer (.text (some (.obj fs))) = .error (.transportProtocolError m)) ∧
    (∀ fs ty, List.lookup "type" fs = some (.str ty) →
      ty ∈ (["data", "error", "complete"] : List String) →
      List.lookup "id" fs = none →
      ∃ m, parseAnswer (.text (some (.obj fs))) = .error (.transportProtocolError m)) ∧
    (∀ fs i, List.lookup "type" fs = some (.str "data") →
      List.lookup "id" fs = some (.str i) →
      (List.lookup "payload" fs = none ∨
        ∃ j, List.lookup "payload" fs = some j ∧ j.isObj = false) →
      ∃ m, parseAnswer (.text (some (.obj fs))) = .error (.transportProtocolError m)) := by
  refine ⟨fun size => ⟨"Binary data received instead of text", rfl⟩,
    ⟨"Not a JSON answer", rfl⟩, ?_, ?_, ?_, ?_⟩
  · intro fs h
    exact ⟨"answer type is missing", by simp [parseAnswer, h]⟩
  · intro fs ty hty hmem
    simp only [List.mem_cons, List.not_mem_nil, or_false, not_or] at hmem
    obtain ⟨h1, h2, h3, h4, h5, h6⟩ := hmem
    exact ⟨"Unknown answer type",
      by simp [parseAnswer, hty, h1, h2, h3, h4, h5, h6]⟩
  · intro fs ty hty hmem hid
    refine ⟨"answer id is missing or not a string", ?_⟩
    simp only [List.mem_cons, List.not_mem_nil, or_false] at hmem
    rcases hmem with h | h | h <;> subst h <;>
      simp [parseAnswer, hty, parseOperationAnswer, hid]
  · intro fs i hty hid hp
    rcases hp with h | ⟨j, hj, hobj⟩
    · exact ⟨"payload is missing",
        by simp [parseAnswer, hty, parseOperationAnswer, hid, h]⟩
    · refine ⟨"payload is not a dict", ?_⟩
      cases j <;> simp_all [parseAnswer, parseOperationAnswer, Json.isObj]

/-- C8 witness: the theorem applied to the concrete garbage frames of the
repository tests: an unparseable text frame, an empty JSON object, a data
frame without an id, and a binary frame. -/
theorem ws_protocol_errors_witness :
    (∃ m, parseAnswer (.text none) = .error (.transportProtocolError m)) ∧
    (∃ m, parseAnswer (.text (some (.obj []))) =
        .error (.transportProtocolError m)) ∧
    (∃ m, parseAnswer (.text (some (.obj [("type", .str "data")]))) =
        .error (.transportProtocolError m)) ∧
    (∃ m, parseAnswer (.bytes 3) = .error (.transportProtocolError m)) :=
  ⟨ws_protocol_errors.2.1,
   ws_protocol_errors.2.2.1 [] rfl,
   ws_protocol_errors.2.2.2.2.1 [("type", .str "data")] "data" rfl (by simp) rfl,
   ws_protocol_errors.1 3⟩

/-! Claim C5: termination of the memoized serializer derivation. -/

/-- Every type reference has positive weight. -/
theorem TypeRef.weight_pos (t : TypeRef) : 1 ≤ t.weight := by
  cases t <;> simp [TypeRef.weight]

/-- Every field list has positive needed fuel. -/
theorem neededFields_pos (fs : List (String × TypeRef)) : 1 ≤ neededFields fs := by
  cases fs with
  | nil => simp [neededFields]
  | cons hd tl =>
    obtain ⟨k, ft⟩ := hd
    simp [neededFields]
    omega

/-- Association list lookup finds the value at a head entry with the
matching key. -/
theorem lookup_cons_self {α β : Type} [BEq α] [LawfulBEq α]
    (k : α) (v : β) (t : List (α × β)) :
    List.lookup k ((k, v) :: t) = some v := by
  simp [List.lookup]

/-- Association list lookup skips a head entry with a different key. -/
theorem lookup_cons_ne {α β : Type} [BEq α] [LawfulBEq α]
    (k name : α) (v : β) (t : List (α × β)) (h : k ≠ name) :
    List.lookup k ((name, v) :: t) = List.lookup k t := by
  have hb : (k == name) = false := beq_eq_false_iff_ne.mpr h
  simp [List.lookup, hb]

/-- Replacing the entry of a key that is present makes lookup of that key
yield the new value. -/
theorem lookup_replaceEntry_self (name : String) (v : Option Ser) :
    ∀ table : List (String × Option Ser), (List.lookup name table).isSome →
      List.lookup name (replaceEntry name v table) = some v := by
  intro table
  induction table with
  | nil => intro h; simp [List.lookup] at h
  | cons hd rest ih =>
    intro h
    obtain ⟨k, w⟩ := hd
    by_cases hk : k = name
    · subst hk
      simp [replaceEntry, List.lookup]
    · have hne : name ≠ k := fun hh => hk hh.symm
      simp only [replaceEntry, if_neg hk]
      rw [lookup_cons_ne name k w rest hne] at h
      rw [lookup_cons_ne name k w (replaceEntry name v rest) hne]
      exact ih h

/-- Replacing the entry of one key leaves lookups of other keys
unchanged. -/
theorem lookup_replaceEntry_ne (name k : String) (v : Option Ser) (h : k ≠ name) :
    ∀ table : List (String × Option Ser),
      List.lookup k (replaceEntry name v table) = List.lookup k table := by
  intro table
  induction table with
  | nil => simp [replaceEntry]
  | cons hd rest ih =>
    obtain ⟨k2, w⟩ := hd
    by_cases hk2 : k2 = name
    · subst hk2
      rw [show replaceEntry k2 v ((k2, w) :: rest) = (k2, v) :: rest from by
        simp [replaceEntry]]
      rw [lookup_cons_ne k k2 v rest h, lookup_cons_ne k k2 w rest h]
    · rw [show replaceEntry name v ((k2, w) :: rest) =
          (k2, w) :: replaceEntry name v rest from by simp [replaceEntry, hk2]]
      by_cases hkk : k = k2
      · subst hkk
        rw [lookup_cons_self k w (replaceEntry name v rest),
          lookup_cons_self k w rest]
      · rw [lookup_cons_ne k k2 w (replaceEntry name v rest) hkk,
          lookup_cons_ne k k2 w rest hkk]
        exact ih

/-- Table preservation is reflexive. -/
theorem tablePreserves_refl (t : List (String × Option Ser)) : tablePreserves t t :=
  fun _ _ h => h

/-- Table preservation is transitive. -/
theorem tablePreserves_trans {t1 t2 t3 : List (String × Option Ser)}
    (h1 : tablePreserves t1 t2) (h2 : tablePreserves t2 t3) :
    tablePreserves t1 t3 :=
  fun k v h => h2 k v (h1 k v h)

/-- Prepending a fresh key preserves every existing binding. -/
theorem tablePreserves_cons (name : String) (table : List (String × Option Ser))
    (hnew : List.lookup name table = none) :
    tablePreserves table ((name, none) :: table) := by
  intro k v h
  have hk : k ≠ name := by
    intro he
    subst he
    rw [hnew] at h
    cases h
  rw [lookup_cons_ne k name none table hk]
  exact h

/-- Pending weight only shrinks along table preservation. -/
theorem pendingWeight_mono (env : List (String × List (String × TypeRef))) :
    ∀ t1 t2 : List (String × Option Ser), tablePreserves t1 t2 →
      pendingWeight env t2 ≤ pendingWeight env t1 := by
  induction env with
  | nil => intro t1 t2 h; simp [pendingWeight]
  | cons hd rest ih =>
    intro t1 t2 h
    obtain ⟨n, fs⟩ := hd
    simp only [pendingWeight]
    apply Nat.add_le_add _ (ih t1 t2 h)
    cases h1 : List.lookup n t1 with
    | some v =>
      have h2 := h n v h1
      simp [h1, h2]
    | none =>
      cases h2 : List.lookup n t2 with
      | some w => simp [h1, h2]
      | none => simp [h1, h2]

/-- Inserting the placeholder for an input object that is in the
environment but not yet in the table frees at least the fuel its fields
need. -/
theorem pendingWeight_insert_found (env : List (String × List (String × TypeRef)))
    (name : String) (fs : List (String × TypeRef)) :
    ∀ table, List.lookup name table = none → List.lookup name env = some fs →
      neededFields fs + 1 + pendingWeight env ((name, none) :: table) ≤
        pendingWeight env table := by
  induction env with
  | nil =>
    intro table _ henv
    simp [List.lookup] at henv
  | cons hd rest ih =>
    intro table htab henv
    obtain ⟨n, gs⟩ := hd
    by_cases hn : name = n
    · subst hn
      rw [lookup_cons_self name gs rest] at henv
      injection henv with hfs
      subst hfs
      simp only [pendingWeight]
      rw [htab, lookup_cons_self name (none : Option Ser) table]
      have hmono := pendingWeight_mono rest table ((name, none) :: table)
        (tablePreserves_cons name table htab)
      simp
      omega
    · rw [lookup_cons_ne name n gs rest hn] at henv
      simp only [pendingWeight]
      rw [lookup_cons_ne n name none table (fun h => hn h.symm)]
      have := ih table htab henv
      omega

/-- Inserting the placeholder for a name absent from the environment does
not change the pending weight. -/
theorem pendingWeight_insert_missing (env : List (String × List (String × TypeRef)))
    (name : String) :
    ∀ table, List.lookup name env = none →
      pendingWeight env ((name, none) :: table) = pendingWeight env table := by
  induction env with
  | nil => intro table _; rfl
  | cons hd rest ih =>
    intro table henv
    obtain ⟨n, gs⟩ := hd
    have hn : name ≠ n := by
      intro h
      subst h
      rw [lookup_cons_self name gs rest] at henv
      cases henv
    rw [lookup_cons_ne name n gs rest hn] at henv
    simp only [pendingWeight]
    rw [lookup_cons_ne n name none table (fun h => hn h.symm), ih table henv]

/-- The mutual fuel-sufficiency induction: with fuel at least the weight
of the type (or field list) plus the pending weight of the environment
over the current table, derivation returns a result, and the resulting
table preserves every binding of the input table. -/
theorem derive_fuel_sufficient (env : List (String × List (String × TypeRef))) :
    ∀ fuel : Nat,
      (∀ t table, t.weight + pendingWeight env table + 1 ≤ fuel →
        ∃ res table2, deriveSer env fuel t table = some (res, table2) ∧
          tablePreserves table table2) ∧
      (∀ fs table, neededFields fs + pendingWeight env table + 1 ≤ fuel →
        ∃ sers table2, deriveFields env fuel fs table = some (sers, table2) ∧
          tablePreserves table table2) := by
  intro fuel
  induction fuel with
  | zero =>
    constructor
    · intro t table hle
      exact absurd hle (by omega)
    · intro fs table hle
      exact absurd hle (by omega)
  | succ fuel ih =>
    obtain ⟨ihS, ihF⟩ := ih
    constructor
    · intro t table hle
      cases t with
      | nonNull inner =>
        have hle2 : inner.weight + 1 + pendingWeight env table + 1 ≤ fuel + 1 := hle
        obtain ⟨res, t2, heq, hp⟩ := ihS inner table (by omega)
        exact ⟨res, t2, by simp [deriveSer, heq], hp⟩
      | inputField inner =>
        have hle2 : inner.weight + 1 + pendingWeight env table + 1 ≤ fuel + 1 := hle
        obtain ⟨res, t2, heq, hp⟩ := ihS inner table (by omega)
        exact ⟨res, t2, by simp [deriveSer, heq], hp⟩
      | listType inner =>
        have hle2 : inner.weight + 1 + pendingWeight env table + 1 ≤ fuel + 1 := hle
        obtain ⟨res, t2, heq, hp⟩ := ihS inner table (by omega)
        exact ⟨some (.list res), t2, by simp [deriveSer, heq], hp⟩
      | enumType name =>
        exact ⟨some (.enum name), table, by simp [deriveSer], tablePreserves_refl table⟩
      | scalarType name =>
        exact ⟨some (.scalar name), table, by simp [deriveSer], tablePreserves_refl table⟩
      | inputObject name =>
        have hle2 : 2 + pendingWeight env table + 1 ≤ fuel + 1 := hle
        cases hc : List.lookup name table with
        | some cached =>
          exact ⟨cached, table, by simp [deriveSer, hc], tablePreserves_refl table⟩
        | none =>
          cases henv : List.lookup name env with
          | some fs0 =>
            have hins := pendingWeight_insert_found env name fs0 table hc henv
            obtain ⟨sers, t2, heqF, hpF⟩ :=
              ihF fs0 ((name, none) :: table) (by omega)
            refine ⟨some (.obj sers), replaceEntry name (some (.obj sers)) t2, ?_, ?_⟩
            · simp [deriveSer, hc, henv, heqF]
            · intro k v hkv
              have hk : k ≠ name := by
                intro h
                subst h
                rw [hc] at hkv
                cases hkv
              rw [lookup_replaceEntry_ne name k (some (.obj sers)) hk t2]
              exact hpF k v (tablePreserves_cons name table hc k v hkv)
          | none =>
            have hins := pendingWeight_insert_missing env name table henv
            have hb : neededFields [] + pendingWeight env ((name, none) :: table) + 1 ≤ fuel := by
              have h1 : neededFields [] = 1 := rfl
              omega
            obtain ⟨sers, t2, heqF, hpF⟩ := ihF [] ((name, none) :: table) hb
            refine ⟨some (.obj sers), replaceEntry name (some (.obj sers)) t2, ?_, ?_⟩
            · simp [deriveSer, hc, henv, heqF]
            · intro k v hkv
              have hk : k ≠ name := by
                intro h
                subst h
                rw [hc] at hkv
                cases hkv
              rw [lookup_replaceEntry_ne name k (some (.obj sers)) hk t2]
              exact hpF k v (tablePreserves_cons name table hc k v hkv)
    · intro fs table hle
      cases fs with
      | nil =>
        exact ⟨[], table, by simp [deriveFields], tablePreserves_refl table⟩
      | cons hd rest =>
        obtain ⟨k, ft⟩ := hd
        have hle2 : ft.weight + 2 + neededFields rest + pendingWeight env table + 1
            ≤ fuel + 1 := hle
        have hnf := neededFields_pos rest
        obtain ⟨s, t2, heq1, hp1⟩ := ihS (.inputField ft) table
          (by show ft.weight + 1 + pendingWeight env table + 1 ≤ fuel; omega)
        have hmono := pendingWeight_mono env table t2 hp1
        have hwp := TypeRef.weight_pos ft
        obtain ⟨sers, t3, heq2, hp2⟩ := ihF rest t2 (by omega)
        exact ⟨(k, s) :: sers, t3, by simp [deriveFields, heq1, heq2],
          tablePreserves_trans hp1 hp2⟩

/-- C5: deriving an argument serializer terminates on every environment of
input object types, including self-referential (cyclic) ones: with the
computable fuel bound the derivation returns a result instead of recursing
unboundedly, because a placeholder table entry is inserted for an input
object before its fields are recursed into, so every recursive reference
to it resolves through the memoization table; and when the derived type is
itself an input object, the final table maps it to the completed
serializer, which has replaced the placeholder. -/
theorem dsl_arg_serializer_terminates
    (env : List (String × List (String × TypeRef))) (t : TypeRef) :
    ∃ res table2, deriveSer env (serFuel env t) t [] = some (res, table2) ∧
      ∀ name, t = .inputObject name →
        ∃ s, res = some s ∧ List.lookup name table2 = some (some s) := by
  obtain ⟨hS, _⟩ := derive_fuel_sufficient env (serFuel env t)
  obtain ⟨res, t2, heq, hp⟩ := hS t []
    (by show t.weight + pendingWeight env [] + 1 ≤ t.weight + pendingWeight env [] + 1
        exact Nat.le_refl _)
  refine ⟨res, t2, heq, ?_⟩
  intro name ht
  subst ht
  obtain ⟨_, hF2⟩ := derive_fuel_sufficient env (2 + pendingWeight env [])
  cases henv : List.lookup name env with
  | some fs0 =>
    have hins := pendingWeight_insert_found env name fs0 [] rfl henv
    obtain ⟨sers, t3, heqF, hpF⟩ := hF2 fs0 [(name, none)] (by
      have h0 : pendingWeight env [(name, none)] =
          pendingWeight env ((name, none) :: []) := rfl
      omega)
    have heq2 : deriveSer env ((2 + pendingWeight env []) + 1)
        (.inputObject name) [] = some (res, t2) := heq
    rw [show deriveSer env ((2 + pendingWeight env []) + 1)
          (.inputObject name) [] =
        match deriveFields env (2 + pendingWeight env [])
            ((List.lookup name env).getD []) [(name, none)] with
        | none => none
        | some (fieldSers, table2) =>
          some (some (.obj fieldSers),
            replaceEntry name (some (.obj fieldSers)) table2) from rfl] at heq2
    rw [henv] at heq2
    have heq2b : (match deriveFields env (2 + pendingWeight env []) fs0
          [(name, none)] with
        | none => none
        | some (fieldSers, table2) =>
          some ((some (Ser.obj fieldSers) : Option Ser),
            replaceEntry name (some (.obj fieldSers)) table2)) =
        some (res, t2) := heq2
    rw [heqF] at heq2b
    have heq3 : some ((some (Ser.obj sers) : Option Ser),
        replaceEntry name (some (.obj sers)) t3) = some (res, t2) := heq2b
    rw [Option.some_inj] at heq3
    obtain ⟨h1, h2⟩ := Prod.mk.injEq .. ▸ heq3
    refine ⟨.obj sers, h1.symm, ?_⟩
    rw [← h2]
    apply lookup_replaceEntry_self
    have := hpF name none (by simp [List.lookup])
    rw [this]
    rfl
  | none =>
    have hins := pendingWeight_insert_missing env name [] henv
    obtain ⟨sers, t3, heqF, hpF⟩ := hF2 [] [(name, none)] (by
      have h1 : neededFields [] = 1 := rfl
      have h0 : pendingWeight env [(name, none)] =
          pendingWeight env ((name, none) :: []) := rfl
      omega)
    have heq2 : deriveSer env ((2 + pendingWeight env []) + 1)
        (.inputObject name) [] = some (res, t2) := heq
    rw [show deriveSer env ((2 + pendingWeight env []) + 1)
          (.inputObject name) [] =
        match deriveFields env (2 + pendingWeight env [])
            ((List.lookup name env).getD []) [(name, none)] with
        | none => none
        | some (fieldSers, table2) =>
          some (some (.obj fieldSers),
            replaceEntry name (some (.obj fieldSers)) table2) from rfl] at heq2
    rw [henv] at heq2
    have heq2b : (match deriveFields env (2 + pendingWeight env [])
          ([] : List (String × TypeRef)) [(name, none)] with
        | none => none
        | some (fieldSers, table2) =>
          some ((some (Ser.obj fieldSers) : Option Ser),
            replaceEntry name (some (.obj fieldSers)) table2)) =
        some (res, t2) := heq2
    rw [heqF] at heq2b
    have heq3 : some ((some (Ser.obj sers) : Option Ser),
        replaceEntry name (some (.obj sers)) t3) = some (res, t2) := heq2b
    rw [Option.some_inj] at heq3
    obtain ⟨h1, h2⟩ := Prod.mk.injEq .. ▸ heq3
    refine ⟨.obj sers, h1.symm, ?_⟩
    rw [← h2]
    apply lookup_replaceEntry_self
    have := hpF name none (by simp [List.lookup])
    rw [this]
    rfl

/-- C5 witness: the theorem applied to the concrete self-referential input
object environment, deriving the serializer of the cyclic ReviewInput type
from an empty table. -/
theorem dsl_arg_serializer_terminates_witness :
    ∃ res table2,
      deriveSer sampleCyclicEnv
          (serFuel sampleCyclicEnv (.inputObject "ReviewInput"))
          (.inputObject "ReviewInput") [] = some (res, table2) ∧
      ∃ s, res = some s ∧ List.lookup "ReviewInput" table2 = some (some s) := by
  obtain ⟨res, t2, heq, hobj⟩ :=
    dsl_arg_serializer_terminates sampleCyclicEnv (.inputObject "ReviewInput")
  exact ⟨res, t2, heq, hobj "ReviewInput" rfl⟩

end Gql
